import Mathlib

/-!
Verification of `calculate_p_for_combined_coefficient.py` (BTIL-UCLA/COX_open).

The script computes, at every voxel, a two-sided p-value for the sum of two
Cox regression coefficients.  We embed the numeric core shallowly:

* a voxel value is `Option ℝ`, with `none` standing for IEEE NaN; every
  arithmetic operation propagates `none`, matching NaN propagation;
* a NumPy array is a `List Val`, and the vectorized operations of the script
  become `List.zipWith` / `List.map` over voxel values;
* the Student's-t CDF comes from SciPy and is modelled as an abstract
  function argument `tcdf : ℝ → ℤ → ℝ` (value, degrees of freedom);
* for the statement about absence of mutation of the inputs we also give a
  heap model in which arrays live at references and NumPy's in-place masked
  assignment is an explicit store update.
-/

namespace CoxOpen

/-- A voxel value: `none` models IEEE NaN, `some x` a finite real. -/
abbrev Val := Option ℝ

/-- Elementwise addition (`+` on NumPy arrays); NaN propagates. -/
def vadd : Val → Val → Val
  | some x, some y => some (x + y)
  | _, _ => none

/-- Multiplication by a scalar constant (`2.0 * cov12`); NaN propagates. -/
def vscale (c : ℝ) : Val → Val
  | some x => some (c * x)
  | none => none

/-- Elementwise negation, used to state the symmetry property. -/
def vneg : Val → Val
  | some x => some (-x)
  | none => none

/-- The guard `var_sum[var_sum <= 0] = np.nan`: a non-positive value is
replaced by NaN; a NaN entry compares false to `0` in NumPy and is left
as NaN, which the `none` branch reproduces. -/
noncomputable def maskNonPos : Val → Val
  | some x => if x ≤ 0 then none else some x
  | none => none

/-- `np.sqrt`: NaN on a negative argument, NaN propagates. -/
noncomputable def vsqrt : Val → Val
  | some x => if x < 0 then none else some (Real.sqrt x)
  | none => none

/-- Elementwise division `beta_sum / se_sum`.  NaN propagates.  A zero
denominator is sent to `none`: in IEEE it would give ±inf (or NaN for 0/0),
and `t.cdf` at ±inf is 1, so the final p-value there is 0 — exactly the
value the `none` branch produces after NaN cleaning; moreover the variance
guard makes every defined denominator strictly positive, so the branch is
unreachable inside `compute_combined_pvalue` (proved below). -/
noncomputable def vdiv : Val → Val → Val
  | some x, some y => if y = 0 then none else some (x / y)
  | _, _ => none

/-- The combined-variance stage with its guard:
`var_sum = var1 + var2 + 2.0 * cov12` followed by
`var_sum[var_sum <= 0] = np.nan`. -/
noncomputable def var_sum_arr (var1 var2 cov12 : List Val) : List Val :=
  List.map maskNonPos
    (List.zipWith vadd (List.zipWith vadd var1 var2) (List.map (vscale 2) cov12))

/-- The standard-error stage: `se_sum = np.sqrt(var_sum)`. -/
noncomputable def se_sum_arr (var1 var2 cov12 : List Val) : List Val :=
  List.map vsqrt (var_sum_arr var1 var2 cov12)

/-- `compute_combined_pvalue(beta1, beta2, var1, var2, cov12, df)`:
`beta_sum = beta1 + beta2`, `t_stat = beta_sum / se_sum`,
`p = 2.0 * (1.0 - t.cdf(np.abs(t_stat), df))`, then
`np.nan_to_num(p, nan=0)`.  `tcdf` abstracts `scipy.stats.t.cdf`. -/
noncomputable def compute_combined_pvalue (tcdf : ℝ → ℤ → ℝ) (df : ℤ)
    (beta1 beta2 var1 var2 cov12 : List Val) : List ℝ :=
  List.map (fun v => Option.getD v 0)
    (List.map (Option.map fun x => 2 * (1 - tcdf |x| df))
      (List.zipWith vdiv (List.zipWith vadd beta1 beta2) (se_sum_arr var1 var2 cov12)))

/-- The whole per-voxel pipeline on scalar voxel values. -/
noncomputable def voxelP (tcdf : ℝ → ℤ → ℝ) (df : ℤ) (b1 b2 v1 v2 c : Val) : ℝ :=
  Option.getD
    (Option.map (fun x => 2 * (1 - tcdf |x| df))
      (vdiv (vadd b1 b2) (vsqrt (maskNonPos (vadd (vadd v1 v2) (vscale 2 c)))))) 0

/-- An input volume: the shape recorded in the NIfTI header plus the voxel
data.  Only the shape check of `main` needs the shape component. -/
structure NDArray where
  shape : List ℕ
  data : List Val

/-- `main`: computes `df = n_obs - n_predictors - 1`, checks that the five
loaded arrays share a shape (raising `ValueError` otherwise, modelled by
`Except.error`), then runs the core and hands the p-map to `save_nifti`
(modelled by returning it in `Except.ok`). -/
noncomputable def main (tcdf : ℝ → ℤ → ℝ) (n_obs n_predictors : ℤ)
    (beta_4 beta_6 var_4 var_6 cov_46 : NDArray) : Except String (List ℝ) :=
  let df := n_obs - n_predictors - 1
  if beta_4.shape = beta_6.shape ∧ beta_6.shape = var_4.shape ∧
      var_4.shape = var_6.shape ∧ var_6.shape = cov_46.shape then
    Except.ok (compute_combined_pvalue tcdf df
      beta_4.data beta_6.data var_4.data var_6.data cov_46.data)
  else
    Except.error "Input NIfTI files must have identical dimensions."

/-- The p-value for a sum of two independent coefficients, following the
spec's sentence: the combined variance is just `var_a + var_b`, with the
same guard, t-statistic, two-sided transform and NaN cleaning. -/
noncomputable def compute_independent (tcdf : ℝ → ℤ → ℝ) (df : ℤ)
    (beta1 beta2 var1 var2 : List Val) : List ℝ :=
  List.map (fun v => Option.getD v 0)
    (List.map (Option.map fun x => 2 * (1 - tcdf |x| df))
      (List.zipWith vdiv (List.zipWith vadd beta1 beta2)
        (List.map vsqrt (List.map maskNonPos (List.zipWith vadd var1 var2)))))

/-- A concrete stand-in for the t CDF, used to instantiate theorems at
concrete inputs.  It satisfies the CDF facts the theorems assume:
it equals 1/2 at 0 and stays in [1/2, 1] on nonnegative arguments. -/
noncomputable def tcdfConst : ℝ → ℤ → ℝ := fun _ _ => 1 / 2

/-! ### Heap model of the NumPy array operations

NumPy array expressions like `var1 + var2` allocate fresh arrays, while the
masked assignment `var_sum[var_sum <= 0] = np.nan` writes in place into the
array it is applied to.  To reason about mutation of the inputs we model a
store of arrays addressed by references. -/

/-- A store of NumPy arrays; a reference is an index into the store. -/
abbrev Heap := List (List Val)

/-- Dereference an array (out-of-range references read as the empty array). -/
def readArr (h : Heap) (r : ℕ) : List Val := h.getD r []

/-- Allocate a fresh array, returning the new store and the new reference. -/
def alloc (h : Heap) (a : List Val) : Heap × ℕ := (h ++ [a], h.length)

/-- The body of `compute_combined_pvalue` statement by statement, against the
store: each NumPy arithmetic expression allocates a fresh array; the guard
`var_sum[var_sum <= 0] = np.nan` is the single in-place write, and it targets
the freshly allocated `var_sum`.  Returns the final store and the p-map. -/
noncomputable def computeProgram (tcdf : ℝ → ℤ → ℝ) (df : ℤ) (h0 : Heap)
    (rb1 rb2 rv1 rv2 rc : ℕ) : Heap × List ℝ :=
  let s1 := alloc h0 (List.zipWith vadd (readArr h0 rv1) (readArr h0 rv2))
  let s2 := alloc s1.1 (List.map (vscale 2) (readArr s1.1 rc))
  let s3 := alloc s2.1 (List.zipWith vadd (readArr s2.1 s1.2) (readArr s2.1 s2.2))
  let h4 := s3.1.set s3.2 (List.map maskNonPos (readArr s3.1 s3.2))
  let s5 := alloc h4 (List.map vsqrt (readArr h4 s3.2))
  let s6 := alloc s5.1 (List.zipWith vadd (readArr s5.1 rb1) (readArr s5.1 rb2))
  let s7 := alloc s6.1 (List.zipWith vdiv (readArr s6.1 s6.2) (readArr s6.1 s5.2))
  let s8 := alloc s7.1 (List.map (Option.map fun x => 2 * (1 - tcdf |x| df)) (readArr s7.1 s7.2))
  (s8.1, List.map (fun v => Option.getD v 0) (readArr s8.1 s8.2))

/-! ### Pointwise description of the vectorized pipeline -/

theorem length_var_sum_arr (var1 var2 cov12 : List Val) :
    (var_sum_arr var1 var2 cov12).length =
      min (min var1.length var2.length) cov12.length := by
  simp [var_sum_arr]

theorem length_compute (tcdf : ℝ → ℤ → ℝ) (df : ℤ)
    (beta1 beta2 var1 var2 cov12 : List Val) :
    (compute_combined_pvalue tcdf df beta1 beta2 var1 var2 cov12).length =
      min (min beta1.length beta2.length)
        (min (min var1.length var2.length) cov12.length) := by
  simp [compute_combined_pvalue, se_sum_arr, length_var_sum_arr]

/-- Each output entry is the scalar pipeline applied to the five input
entries at the same index: the vectorized code has no cross-voxel flow. -/
theorem compute_getD (tcdf : ℝ → ℤ → ℝ) (df : ℤ)
    (b1 b2 v1 v2 c : List Val) (n i : ℕ)
    (hb1 : b1.length = n) (hb2 : b2.length = n) (hv1 : v1.length = n)
    (hv2 : v2.length = n) (hc : c.length = n) (hi : i < n) :
    (compute_combined_pvalue tcdf df b1 b2 v1 v2 c).getD i 0 =
      voxelP tcdf df (b1.getD i none) (b2.getD i none) (v1.getD i none)
        (v2.getD i none) (c.getD i none) := by
  have hlen : (compute_combined_pvalue tcdf df b1 b2 v1 v2 c).length = n := by
    simp [length_compute, hb1, hb2, hv1, hv2, hc]
  rw [List.getD_eq_getElem _ _ (by omega),
    List.getD_eq_getElem _ _ (by omega), List.getD_eq_getElem _ _ (by omega),
    List.getD_eq_getElem _ _ (by omega), List.getD_eq_getElem _ _ (by omega),
    List.getD_eq_getElem _ _ (by omega)]
  simp [compute_combined_pvalue, se_sum_arr, var_sum_arr, voxelP,
    List.getElem_zipWith, List.getElem_map]

/-! ### Scalar facts about the per-voxel pipeline -/

/-- On a voxel whose combined variance is strictly positive and whose five
inputs are finite, the pipeline computes the closed-form two-sided p-value. -/
theorem voxelP_pos (tcdf : ℝ → ℤ → ℝ) (df : ℤ) (x1 x2 s1 s2 sc : ℝ)
    (hpos : 0 < s1 + s2 + 2 * sc) :
    voxelP tcdf df (some x1) (some x2) (some s1) (some s2) (some sc) =
      2 * (1 - tcdf (|x1 + x2| / Real.sqrt (s1 + s2 + 2 * sc)) df) := by
  have hsq : 0 < Real.sqrt (s1 + s2 + 2 * sc) := Real.sqrt_pos.mpr hpos
  have h1 : maskNonPos (some (s1 + s2 + 2 * sc)) = some (s1 + s2 + 2 * sc) := by
    simp only [maskNonPos, if_neg (not_le.mpr hpos)]
  have h2 : vsqrt (some (s1 + s2 + 2 * sc)) = some (Real.sqrt (s1 + s2 + 2 * sc)) := by
    simp only [vsqrt, if_neg (not_lt.mpr (le_of_lt hpos))]
  have h3 : vdiv (some (x1 + x2)) (some (Real.sqrt (s1 + s2 + 2 * sc))) =
      some ((x1 + x2) / Real.sqrt (s1 + s2 + 2 * sc)) := by
    simp only [vdiv, if_neg (ne_of_gt hsq)]
  simp only [voxelP, vadd, vscale, h1, h2, h3, Option.map_some', Option.getD_some]
  rw [abs_div, abs_of_nonneg (Real.sqrt_nonneg (s1 + s2 + 2 * sc))]

/-- On a voxel whose combined variance is non-positive, the pipeline returns
0, whatever the beta inputs are (finite or NaN). -/
theorem voxelP_nonpos (tcdf : ℝ → ℤ → ℝ) (df : ℤ) (b1 b2 : Val)
    (s1 s2 sc : ℝ) (h : s1 + s2 + 2 * sc ≤ 0) :
    voxelP tcdf df b1 b2 (some s1) (some s2) (some sc) = 0 := by
  simp only [voxelP, vadd, vscale, maskNonPos]
  rw [if_pos (by linarith)]
  cases vadd b1 b2 <;> simp [vsqrt, vdiv]

/-! ### The claims -/

/-- C1: at every voxel `i` whose five inputs are finite and whose combined
variance `var_a[i] + var_b[i] + 2*cov_ab[i]` is strictly positive, the output
of `compute_combined_pvalue` at `i` equals
`2 * (1 - T_cdf(|beta_a[i] + beta_b[i]| / sqrt(var_a[i] + var_b[i] + 2*cov_ab[i]), df))`. -/
theorem C1_valid_voxel_formula (tcdf : ℝ → ℤ → ℝ) (df : ℤ)
    (b1 b2 v1 v2 c : List Val) (n i : ℕ)
    (hb1 : b1.length = n) (hb2 : b2.length = n) (hv1 : v1.length = n)
    (hv2 : v2.length = n) (hc : c.length = n) (hi : i < n)
    (x1 x2 s1 s2 sc : ℝ)
    (e1 : b1.getD i none = some x1) (e2 : b2.getD i none = some x2)
    (e3 : v1.getD i none = some s1) (e4 : v2.getD i none = some s2)
    (e5 : c.getD i none = some sc)
    (hpos : 0 < s1 + s2 + 2 * sc) :
    (compute_combined_pvalue tcdf df b1 b2 v1 v2 c).getD i 0 =
      2 * (1 - tcdf (|x1 + x2| / Real.sqrt (s1 + s2 + 2 * sc)) df) := by
  rw [compute_getD tcdf df b1 b2 v1 v2 c n i hb1 hb2 hv1 hv2 hc hi,
    e1, e2, e3, e4, e5, voxelP_pos tcdf df x1 x2 s1 s2 sc hpos]

theorem C1_witness :
    0 < (1 : ℝ) + 1 + 2 * 0 ∧
    (compute_combined_pvalue tcdfConst 50 [some 1] [some 1] [some 1] [some 1]
        [some 0]).getD 0 0 =
      2 * (1 - tcdfConst (|(1 : ℝ) + 1| / Real.sqrt (1 + 1 + 2 * 0)) 50) :=
  ⟨by norm_num,
    C1_valid_voxel_formula tcdfConst 50 [some 1] [some 1] [some 1] [some 1]
      [some 0] 1 0 rfl rfl rfl rfl rfl Nat.one_pos 1 1 1 1 0
      rfl rfl rfl rfl rfl (by norm_num)⟩

/-- C2: at every voxel `i` whose variance inputs are finite with
`var_a[i] + var_b[i] + 2*cov_ab[i] ≤ 0`, the output is exactly 0, whatever
the beta inputs at `i` are (even NaN); the degeneracy is absorbed into the
output — `compute_combined_pvalue` is a total function and raises nothing. -/
theorem C2_degenerate_voxel_zero (tcdf : ℝ → ℤ → ℝ) (df : ℤ)
    (b1 b2 v1 v2 c : List Val) (n i : ℕ)
    (hb1 : b1.length = n) (hb2 : b2.length = n) (hv1 : v1.length = n)
    (hv2 : v2.length = n) (hc : c.length = n) (hi : i < n)
    (s1 s2 sc : ℝ)
    (e3 : v1.getD i none = some s1) (e4 : v2.getD i none = some s2)
    (e5 : c.getD i none = some sc)
    (hnonpos : s1 + s2 + 2 * sc ≤ 0) :
    (compute_combined_pvalue tcdf df b1 b2 v1 v2 c).getD i 0 = 0 := by
  rw [compute_getD tcdf df b1 b2 v1 v2 c n i hb1 hb2 hv1 hv2 hc hi, e3, e4, e5,
    voxelP_nonpos tcdf df _ _ s1 s2 sc hnonpos]

theorem C2_witness :
    (-1 : ℝ) + 0 + 2 * 0 ≤ 0 ∧
    (compute_combined_pvalue tcdfConst 50 [some 5] [none] [some (-1)] [some 0]
        [some 0]).getD 0 0 = 0 :=
  ⟨by norm_num,
    C2_degenerate_voxel_zero tcdfConst 50 [some 5] [none] [some (-1)] [some 0]
      [some 0] 1 0 rfl rfl rfl rfl rfl Nat.one_pos (-1) 0 0
      rfl rfl rfl (by norm_num)⟩

/-- C7: at every voxel `i` with finite inputs, `beta_a[i] + beta_b[i] = 0`
and strictly positive combined variance, the output is exactly 1
(`t_stat = 0`, `T_cdf(0, df) = 1/2`, `p = 2 * (1 - 1/2) = 1`). -/
theorem C7_zero_beta_sum_gives_one (tcdf : ℝ → ℤ → ℝ) (df : ℤ)
    (b1 b2 v1 v2 c : List Val) (n i : ℕ)
    (hb1 : b1.length = n) (hb2 : b2.length = n) (hv1 : v1.length = n)
    (hv2 : v2.length = n) (hc : c.length = n) (hi : i < n)
    (x1 x2 s1 s2 sc : ℝ)
    (e1 : b1.getD i none = some x1) (e2 : b2.getD i none = some x2)
    (e3 : v1.getD i none = some s1) (e4 : v2.getD i none = some s2)
    (e5 : c.getD i none = some sc)
    (hzero : x1 + x2 = 0) (hpos : 0 < s1 + s2 + 2 * sc)
    (hcdf0 : tcdf 0 df = 1 / 2) :
    (compute_combined_pvalue tcdf df b1 b2 v1 v2 c).getD i 0 = 1 := by
  rw [compute_getD tcdf df b1 b2 v1 v2 c n i hb1 hb2 hv1 hv2 hc hi,
    e1, e2, e3, e4, e5, voxelP_pos tcdf df x1 x2 s1 s2 sc hpos, hzero]
  rw [abs_zero, zero_div, hcdf0]
  norm_num

theorem C7_witness :
    (2 : ℝ) + (-2) = 0 ∧
    (compute_combined_pvalue tcdfConst 50 [some 2] [some (-2)] [some 1] [some 1]
        [some 0]).getD 0 0 = 1 :=
  ⟨by norm_num,
    C7_zero_beta_sum_gives_one tcdfConst 50 [some 2] [some (-2)] [some 1]
      [some 1] [some 0] 1 0 rfl rfl rfl rfl rfl Nat.one_pos 2 (-2) 1 1 0
      rfl rfl rfl rfl rfl (by norm_num) (by norm_num) rfl⟩

/-- C8: per-voxel noninterference.  Two runs on same-shaped inputs with the
same `df` that agree on the five input values at voxel `i` produce the same
output at `i`, regardless of every other voxel. -/
theorem C8_voxel_noninterference (tcdf : ℝ → ℤ → ℝ) (df : ℤ)
    (b1 b2 v1 v2 c b1' b2' v1' v2' c' : List Val) (n i : ℕ)
    (hb1 : b1.length = n) (hb2 : b2.length = n) (hv1 : v1.length = n)
    (hv2 : v2.length = n) (hc : c.length = n)
    (hb1' : b1'.length = n) (hb2' : b2'.length = n) (hv1' : v1'.length = n)
    (hv2' : v2'.length = n) (hc' : c'.length = n) (hi : i < n)
    (h1 : b1.getD i none = b1'.getD i none) (h2 : b2.getD i none = b2'.getD i none)
    (h3 : v1.getD i none = v1'.getD i none) (h4 : v2.getD i none = v2'.getD i none)
    (h5 : c.getD i none = c'.getD i none) :
    (compute_combined_pvalue tcdf df b1 b2 v1 v2 c).getD i 0 =
      (compute_combined_pvalue tcdf df b1' b2' v1' v2' c').getD i 0 := by
  rw [compute_getD tcdf df b1 b2 v1 v2 c n i hb1 hb2 hv1 hv2 hc hi,
    compute_getD tcdf df b1' b2' v1' v2' c' n i hb1' hb2' hv1' hv2' hc' hi,
    h1, h2, h3, h4, h5]

theorem C8_witness :
    ([some 1, some 9] : List Val).getD 0 none = ([some 1, none] : List Val).getD 0 none ∧
    (compute_combined_pvalue tcdfConst 50 [some 1, some 9] [some 1, some 9]
        [some 1, some 9] [some 1, some 9] [some 0, some 9]).getD 0 0 =
      (compute_combined_pvalue tcdfConst 50 [some 1, none] [some 1, none]
        [some 1, none] [some 1, none] [some 0, none]).getD 0 0 :=
  ⟨rfl,
    C8_voxel_noninterference tcdfConst 50 [some 1, some 9] [some 1, some 9]
      [some 1, some 9] [some 1, some 9] [some 0, some 9] [some 1, none]
      [some 1, none] [some 1, none] [some 1, none] [some 0, none] 2 0
      rfl rfl rfl rfl rfl rfl rfl rfl rfl rfl (by norm_num)
      rfl rfl rfl rfl rfl⟩

/-- C4: under the standard facts about the t CDF (it is at least 1/2 and at
most 1 on nonnegative arguments), every element of the returned array lies
in [0, 1]: defined voxels give `2 * (1 - T_cdf(|t|, df)) ∈ [0, 1]` and every
undefined/NaN voxel is forced to exactly 0. -/
theorem C4_output_in_unit_interval (tcdf : ℝ → ℤ → ℝ) (df : ℤ)
    (b1 b2 v1 v2 c : List Val)
    (hcdf : ∀ x : ℝ, 0 ≤ x → 1 / 2 ≤ tcdf x df ∧ tcdf x df ≤ 1)
    (p : ℝ) (hp : p ∈ compute_combined_pvalue tcdf df b1 b2 v1 v2 c) :
    0 ≤ p ∧ p ≤ 1 := by
  simp only [compute_combined_pvalue, List.mem_map] at hp
  obtain ⟨v, ⟨u, _, rfl⟩, rfl⟩ := hp
  cases u with
  | none => simp
  | some x =>
    obtain ⟨hlo, hhi⟩ := hcdf |x| (abs_nonneg x)
    constructor
    · simp only [Option.map_some', Option.getD_some]
      linarith
    · simp only [Option.map_some', Option.getD_some]
      linarith

theorem C4_witness :
    (∀ x : ℝ, 0 ≤ x → 1 / 2 ≤ tcdfConst x 50 ∧ tcdfConst x 50 ≤ 1) ∧
    (0 : ℝ) ∈ compute_combined_pvalue tcdfConst 50 [some 0] [some 0]
      [some (-1)] [some 0] [some 0] ∧
    0 ≤ (0 : ℝ) ∧ (0 : ℝ) ≤ 1 := by
  have hcdf : ∀ x : ℝ, 0 ≤ x → 1 / 2 ≤ tcdfConst x 50 ∧ tcdfConst x 50 ≤ 1 := by
    intro x _
    constructor <;> norm_num [tcdfConst]
  have heval : compute_combined_pvalue tcdfConst 50 [some 0] [some 0]
      [some (-1)] [some 0] [some 0] = [0] := by
    norm_num [compute_combined_pvalue, se_sum_arr, var_sum_arr, vadd, vscale,
      maskNonPos, vsqrt, vdiv]
  have hmem : (0 : ℝ) ∈ compute_combined_pvalue tcdfConst 50 [some 0] [some 0]
      [some (-1)] [some 0] [some 0] := by
    rw [heval]
    exact List.mem_singleton.mpr rfl
  exact ⟨hcdf, hmem, C4_output_in_unit_interval tcdfConst 50 _ _ _ _ _ hcdf 0 hmem⟩

/-- Negating both summands negates the sum, at the voxel-value level. -/
theorem vadd_vneg (a b : Val) : vadd (vneg a) (vneg b) = vneg (vadd a b) := by
  cases a <;> cases b <;> simp [vadd, vneg, neg_add] <;> ring

/-- C5: negation symmetry — running `compute_combined_pvalue` on
`(-beta_a, -beta_b)` gives exactly the same output array as on
`(beta_a, beta_b)`, because the p-value depends only on `|t_stat|`. -/
theorem C5_negation_symmetry (tcdf : ℝ → ℤ → ℝ) (df : ℤ)
    (b1 b2 v1 v2 c : List Val) :
    compute_combined_pvalue tcdf df (b1.map vneg) (b2.map vneg) v1 v2 c =
      compute_combined_pvalue tcdf df b1 b2 v1 v2 c := by
  have h1 : ∀ (xs ys : List Val),
      List.zipWith vadd (xs.map vneg) (ys.map vneg) =
        (List.zipWith vadd xs ys).map vneg := by
    intro xs
    induction xs with
    | nil => intro ys; simp
    | cons x xs ih =>
      intro ys
      cases ys with
      | nil => simp
      | cons y ys => simp [ih, vadd_vneg]
  have key : ∀ (a s : Val),
      Option.map (fun x => 2 * (1 - tcdf |x| df)) (vdiv (vneg a) s) =
        Option.map (fun x => 2 * (1 - tcdf |x| df)) (vdiv a s) := by
    intro a s
    cases a with
    | none => simp [vneg]
    | some x =>
      cases s with
      | none => simp [vneg, vdiv]
      | some y =>
        simp only [vneg, vdiv]
        split_ifs with hy
        · rfl
        · simp [neg_div, abs_neg]
  have h2 : ∀ (xs ss : List Val),
      List.map (Option.map fun x => 2 * (1 - tcdf |x| df))
          (List.zipWith vdiv (xs.map vneg) ss) =
        List.map (Option.map fun x => 2 * (1 - tcdf |x| df))
          (List.zipWith vdiv xs ss) := by
    intro xs
    induction xs with
    | nil => intro ss; simp
    | cons x xs ih =>
      intro ss
      cases ss with
      | nil => simp
      | cons s ss => simp [ih, key]
  simp only [compute_combined_pvalue, h1, h2]

/-- C6: zero-covariance reduction — when `cov_ab` is identically 0 (and the
variance and covariance maps share a length), the combined variance computed
by `compute_combined_pvalue` is `var_a + var_b`, so its output coincides
with the p-value for the sum of two independent coefficients. -/
theorem C6_zero_covariance_reduction (tcdf : ℝ → ℤ → ℝ) (df : ℤ)
    (b1 b2 v1 v2 c : List Val) (n : ℕ)
    (hv1 : v1.length = n) (hv2 : v2.length = n) (hc : c.length = n)
    (hzero : ∀ x ∈ c, x = some 0) :
    compute_combined_pvalue tcdf df b1 b2 v1 v2 c =
      compute_independent tcdf df b1 b2 v1 v2 := by
  have hvar : ∀ (xs cs : List Val), xs.length ≤ cs.length →
      (∀ x ∈ cs, x = some 0) →
      List.zipWith vadd xs (cs.map (vscale 2)) = xs := by
    intro xs
    induction xs with
    | nil => intro cs _ _; simp
    | cons x xs ih =>
      intro cs hlen hcs
      cases cs with
      | nil => simp at hlen
      | cons c0 cs =>
        have hc0 : c0 = some 0 := hcs c0 (List.mem_cons_self c0 cs)
        have hx : vadd x (vscale 2 c0) = x := by
          subst hc0
          cases x <;> simp [vadd, vscale]
        simp only [List.map_cons, List.zipWith_cons_cons, hx]
        rw [ih cs (by simpa using hlen) (fun y hy => hcs y (List.mem_cons_of_mem c0 hy))]
  have hlen : (List.zipWith vadd v1 v2).length ≤ c.length := by
    simp [hv1, hv2, hc]
  simp only [compute_combined_pvalue, compute_independent, se_sum_arr, var_sum_arr,
    hvar (List.zipWith vadd v1 v2) c hlen hzero]

theorem C6_witness :
    (∀ x ∈ ([some 0, some 0] : List Val), x = some 0) ∧
    compute_combined_pvalue tcdfConst 50 [some 1, none] [some 2, some 3]
        [some 1, some 4] [some 2, some 5] [some 0, some 0] =
      compute_independent tcdfConst 50 [some 1, none] [some 2, some 3]
        [some 1, some 4] [some 2, some 5] :=
  ⟨by simp,
    C6_zero_covariance_reduction tcdfConst 50 [some 1, none] [some 2, some 3]
      [some 1, some 4] [some 2, some 5] [some 0, some 0] 2 rfl rfl rfl
      (by simp)⟩

/-- C10: after the non-positive-variance guard, every entry of the
standard-error stage `se_sum` is either NaN or strictly positive — in
particular never a finite zero, so the division `beta_sum / se_sum` never
divides by a finite zero and the only undefined t-statistics come from NaN
propagation. -/
theorem C10_se_nan_or_positive (v1 v2 c : List Val) (s : Val)
    (hs : s ∈ se_sum_arr v1 v2 c) :
    (s = none ∨ ∃ r : ℝ, 0 < r ∧ s = some r) ∧ s ≠ some 0 := by
  simp only [se_sum_arr, var_sum_arr, List.mem_map] at hs
  obtain ⟨u, ⟨w, _, rfl⟩, rfl⟩ := hs
  cases w with
  | none =>
    exact ⟨Or.inl rfl, by simp [maskNonPos, vsqrt]⟩
  | some x =>
    by_cases hx : x ≤ 0
    · refine ⟨Or.inl ?_, ?_⟩ <;> simp [maskNonPos, hx, vsqrt]
    · have hxpos : 0 < x := lt_of_not_le hx
      have hval : vsqrt (maskNonPos (some x)) = some (Real.sqrt x) := by
        simp [maskNonPos, hx, vsqrt, not_lt.mpr (le_of_lt hxpos)]
      have hpos : 0 < Real.sqrt x := Real.sqrt_pos.mpr hxpos
      refine ⟨Or.inr ⟨Real.sqrt x, hpos, hval⟩, ?_⟩
      rw [hval]
      simp [ne_of_gt hpos]

theorem C10_witness :
    (some (Real.sqrt 2) : Val) ∈ se_sum_arr [some 1] [some 1] [some 0] ∧
    ((some (Real.sqrt 2) : Val) = none ∨
      ∃ r : ℝ, 0 < r ∧ (some (Real.sqrt 2) : Val) = some r) ∧
    (some (Real.sqrt 2) : Val) ≠ some 0 := by
  have hmem : (some (Real.sqrt 2) : Val) ∈ se_sum_arr [some 1] [some 1] [some 0] := by
    have heval : se_sum_arr [some 1] [some 1] [some 0] = [some (Real.sqrt 2)] := by
      norm_num [se_sum_arr, var_sum_arr, vadd, vscale, maskNonPos, vsqrt]
    rw [heval]
    exact List.mem_singleton.mpr rfl
  exact ⟨hmem, C10_se_nan_or_positive [some 1] [some 1] [some 0] _ hmem⟩

/-- C3: if any two of the five input arrays differ in shape, `main` raises
the shape-mismatch `ValueError` before the core computation, and no output
is produced (`save_nifti` is never reached: the run ends in `Except.error`);
if all five shapes agree, no such error is raised and an output is handed
to `save_nifti` (`Except.ok`). -/
theorem C3_shape_mismatch (tcdf : ℝ → ℤ → ℝ) (n_obs n_predictors : ℤ)
    (beta_4 beta_6 var_4 var_6 cov_46 : NDArray) :
    ((∃ s1 ∈ [beta_4.shape, beta_6.shape, var_4.shape, var_6.shape, cov_46.shape],
      ∃ s2 ∈ [beta_4.shape, beta_6.shape, var_4.shape, var_6.shape, cov_46.shape],
        s1 ≠ s2) →
      main tcdf n_obs n_predictors beta_4 beta_6 var_4 var_6 cov_46 =
        Except.error "Input NIfTI files must have identical dimensions.") ∧
    ((beta_4.shape = beta_6.shape ∧ beta_6.shape = var_4.shape ∧
        var_4.shape = var_6.shape ∧ var_6.shape = cov_46.shape) →
      ∃ p, main tcdf n_obs n_predictors beta_4 beta_6 var_4 var_6 cov_46 =
        Except.ok p) := by
  constructor
  · rintro ⟨s1, hs1, s2, hs2, hne⟩
    rw [main, if_neg]
    rintro ⟨h1, h2, h3, h4⟩
    simp only [List.mem_cons, List.mem_singleton, List.not_mem_nil, or_false] at hs1 hs2
    rcases hs1 with rfl | rfl | rfl | rfl | rfl <;>
      rcases hs2 with rfl | rfl | rfl | rfl | rfl <;>
      simp_all
  · intro hall
    rw [main, if_pos hall]
    exact ⟨_, rfl⟩

theorem C3_witness :
    (∃ s1 ∈ [([2] : List ℕ), [3], [2], [2], [2]],
      ∃ s2 ∈ [([2] : List ℕ), [3], [2], [2], [2]], s1 ≠ s2) ∧
    main tcdfConst 10 3 ⟨[2], [some 1, some 1]⟩ ⟨[3], [some 1]⟩
        ⟨[2], [some 1, some 1]⟩ ⟨[2], [some 1, some 1]⟩ ⟨[2], [some 0, some 0]⟩ =
      Except.error "Input NIfTI files must have identical dimensions." ∧
    (∃ p, main tcdfConst 10 3 ⟨[2], [some 1, some 1]⟩ ⟨[2], [some 1, some 1]⟩
        ⟨[2], [some 1, some 1]⟩ ⟨[2], [some 1, some 1]⟩ ⟨[2], [some 0, some 0]⟩ =
      Except.ok p) := by
  have hdiff : ∃ s1 ∈ [([2] : List ℕ), [3], [2], [2], [2]],
      ∃ s2 ∈ [([2] : List ℕ), [3], [2], [2], [2]], s1 ≠ s2 :=
    ⟨[2], by simp, [3], by simp, by simp⟩
  refine ⟨hdiff, ?_, ?_⟩
  · exact (C3_shape_mismatch tcdfConst 10 3 ⟨[2], [some 1, some 1]⟩
      ⟨[3], [some 1]⟩ ⟨[2], [some 1, some 1]⟩ ⟨[2], [some 1, some 1]⟩
      ⟨[2], [some 0, some 0]⟩).1 hdiff
  · exact (C3_shape_mismatch tcdfConst 10 3 ⟨[2], [some 1, some 1]⟩
      ⟨[2], [some 1, some 1]⟩ ⟨[2], [some 1, some 1]⟩ ⟨[2], [some 1, some 1]⟩
      ⟨[2], [some 0, some 0]⟩).2 ⟨rfl, rfl, rfl, rfl⟩

/-! ### Store reasoning for the mutation claim -/

theorem readArr_append_lt (h : Heap) (a : List Val) (r : ℕ) (hr : r < h.length) :
    readArr (h ++ [a]) r = readArr h r := by
  simp only [readArr, List.getD_eq_getD_get?, List.get?_eq_getElem?]
  rw [List.getElem?_append, if_pos hr]

theorem readArr_append_self (h : Heap) (a : List Val) :
    readArr (h ++ [a]) h.length = a := by
  simp only [readArr, List.getD_eq_getD_get?, List.get?_eq_getElem?]
  rw [List.getElem?_append_right le_rfl]
  simp

theorem readArr_set_ne (h : Heap) (r r' : ℕ) (a : List Val) (hne : r ≠ r') :
    readArr (h.set r a) r' = readArr h r' := by
  simp only [readArr, List.getD_eq_getD_get?, List.get?_eq_getElem?]
  rw [List.getElem?_set_ne hne]

theorem readArr_set_self (h : Heap) (r : ℕ) (a : List Val) (hr : r < h.length) :
    readArr (h.set r a) r = a := by
  simp only [readArr, List.getD_eq_getD_get?, List.get?_eq_getElem?]
  rw [List.getElem?_set_eq_of_lt a hr]
  simp

/-- Frame fact: eight allocations and one in-place write at the index of the
third allocation leave every pre-existing store cell untouched. -/
theorem readArr_frame (h : Heap) (a1 a2 a3 m a5 a6 a7 a8 : List Val) (r : ℕ)
    (hr : r < h.length) :
    readArr ((((((((h ++ [a1]) ++ [a2]) ++ [a3]).set ((h ++ [a1]) ++ [a2]).length m)
        ++ [a5]) ++ [a6]) ++ [a7]) ++ [a8]) r = readArr h r := by
  simp only [readArr, List.getD_eq_getD_get?, List.get?_eq_getElem?,
    List.getElem?_append, List.getElem?_set, List.length_append, List.length_set,
    List.length_cons, List.length_nil]
  split_ifs <;> first | rfl | omega

/-- The store after a run of the body: every original cell is unchanged. -/
theorem computeProgram_frame (tcdf : ℝ → ℤ → ℝ) (df : ℤ) (h0 : Heap)
    (rb1 rb2 rv1 rv2 rc : ℕ) (r : ℕ) (hr : r < h0.length) :
    readArr (computeProgram tcdf df h0 rb1 rb2 rv1 rv2 rc).1 r = readArr h0 r := by
  simp only [computeProgram, alloc]
  generalize List.zipWith vadd (readArr h0 rv1) (readArr h0 rv2) = A1
  generalize List.map (vscale 2) (readArr (h0 ++ [A1]) rc) = A2
  generalize List.zipWith vadd (readArr ((h0 ++ [A1]) ++ [A2]) h0.length)
    (readArr ((h0 ++ [A1]) ++ [A2]) (h0 ++ [A1]).length) = A3
  generalize List.map maskNonPos
    (readArr (((h0 ++ [A1]) ++ [A2]) ++ [A3]) ((h0 ++ [A1]) ++ [A2]).length) = M
  generalize hH4 : (((h0 ++ [A1]) ++ [A2]) ++ [A3]).set
    ((h0 ++ [A1]) ++ [A2]).length M = H4
  generalize List.map vsqrt (readArr H4 ((h0 ++ [A1]) ++ [A2]).length) = A5
  generalize List.zipWith vadd (readArr (H4 ++ [A5]) rb1)
    (readArr (H4 ++ [A5]) rb2) = A6
  generalize List.zipWith vdiv (readArr ((H4 ++ [A5]) ++ [A6]) (H4 ++ [A5]).length)
    (readArr ((H4 ++ [A5]) ++ [A6]) H4.length) = A7
  generalize List.map (Option.map fun x => 2 * (1 - tcdf |x| df))
    (readArr (((H4 ++ [A5]) ++ [A6]) ++ [A7]) ((H4 ++ [A5]) ++ [A6]).length) = A8
  subst hH4
  exact readArr_frame h0 A1 A2 A3 M A5 A6 A7 A8 r hr

/-- The value a run of the body hands to `save_nifti` is the pure function
of the five input arrays as read before the call. -/
theorem computeProgram_result (tcdf : ℝ → ℤ → ℝ) (df : ℤ) (h0 : Heap)
    (rb1 rb2 rv1 rv2 rc : ℕ)
    (hb1 : rb1 < h0.length) (hb2 : rb2 < h0.length) (hv1 : rv1 < h0.length)
    (hv2 : rv2 < h0.length) (hc : rc < h0.length) :
    (computeProgram tcdf df h0 rb1 rb2 rv1 rv2 rc).2 =
      compute_combined_pvalue tcdf df (readArr h0 rb1) (readArr h0 rb2)
        (readArr h0 rv1) (readArr h0 rv2) (readArr h0 rc) := by
  simp only [computeProgram, alloc, compute_combined_pvalue, se_sum_arr, var_sum_arr]
  rw [readArr_append_lt h0 _ rc hc]
  generalize List.zipWith vadd (readArr h0 rv1) (readArr h0 rv2) = A1
  generalize List.map (vscale 2) (readArr h0 rc) = A2
  rw [readArr_append_lt (h0 ++ [A1]) A2 h0.length
    (by simp only [List.length_append, List.length_cons, List.length_nil]; omega)]
  rw [readArr_append_self h0 A1]
  rw [readArr_append_self (h0 ++ [A1]) A2]
  generalize List.zipWith vadd A1 A2 = A3
  rw [readArr_append_self ((h0 ++ [A1]) ++ [A2]) A3]
  generalize List.map maskNonPos A3 = M
  rw [readArr_set_self (((h0 ++ [A1]) ++ [A2]) ++ [A3]) ((h0 ++ [A1]) ++ [A2]).length M
    (by simp only [List.length_append, List.length_cons, List.length_nil]; omega)]
  generalize List.map vsqrt M = A5
  rw [readArr_append_lt ((((h0 ++ [A1]) ++ [A2]) ++ [A3]).set
      ((h0 ++ [A1]) ++ [A2]).length M) A5 rb1
    (by simp only [List.length_append, List.length_set, List.length_cons,
      List.length_nil]; omega)]
  rw [readArr_append_lt ((((h0 ++ [A1]) ++ [A2]) ++ [A3]).set
      ((h0 ++ [A1]) ++ [A2]).length M) A5 rb2
    (by simp only [List.length_append, List.length_set, List.length_cons,
      List.length_nil]; omega)]
  rw [readArr_set_ne (((h0 ++ [A1]) ++ [A2]) ++ [A3]) ((h0 ++ [A1]) ++ [A2]).length rb1 M
    (by simp only [List.length_append, List.length_cons, List.length_nil]; omega)]
  rw [readArr_set_ne (((h0 ++ [A1]) ++ [A2]) ++ [A3]) ((h0 ++ [A1]) ++ [A2]).length rb2 M
    (by simp only [List.length_append, List.length_cons, List.length_nil]; omega)]
  rw [readArr_append_lt ((h0 ++ [A1]) ++ [A2]) A3 rb1
    (by simp only [List.length_append, List.length_cons, List.length_nil]; omega)]
  rw [readArr_append_lt ((h0 ++ [A1]) ++ [A2]) A3 rb2
    (by simp only [List.length_append, List.length_cons, List.length_nil]; omega)]
  rw [readArr_append_lt (h0 ++ [A1]) A2 rb1
    (by simp only [List.length_append, List.length_cons, List.length_nil]; omega)]
  rw [readArr_append_lt (h0 ++ [A1]) A2 rb2
    (by simp only [List.length_append, List.length_cons, List.length_nil]; omega)]
  rw [readArr_append_lt h0 A1 rb1 hb1]
  rw [readArr_append_lt h0 A1 rb2 hb2]
  generalize hH4 : (((h0 ++ [A1]) ++ [A2]) ++ [A3]).set
    ((h0 ++ [A1]) ++ [A2]).length M = H4
  generalize List.zipWith vadd (readArr h0 rb1) (readArr h0 rb2) = A6
  rw [readArr_append_self (H4 ++ [A5]) A6]
  rw [readArr_append_lt (H4 ++ [A5]) A6 H4.length
    (by simp only [List.length_append, List.length_cons, List.length_nil]; omega)]
  rw [readArr_append_self H4 A5]
  generalize List.zipWith vdiv A6 A5 = A7
  rw [readArr_append_self ((H4 ++ [A5]) ++ [A6]) A7]
  generalize List.map (Option.map fun x => 2 * (1 - tcdf |x| df)) A7 = A8
  rw [readArr_append_self (((H4 ++ [A5]) ++ [A6]) ++ [A7]) A8]

/-- C9: `compute_combined_pvalue` has no side effect on its arguments.  In
the store model of the NumPy operations, after the body runs every array
that existed before the call — in particular each of the five inputs — reads
back unchanged: the in-place NaN-marking hits only the freshly allocated
`var_sum`.  Moreover the value produced is the pure function of the five
input arrays, so the engine is a pure mapping. -/
theorem C9_no_input_mutation (tcdf : ℝ → ℤ → ℝ) (df : ℤ) (h0 : Heap)
    (rb1 rb2 rv1 rv2 rc : ℕ)
    (hb1 : rb1 < h0.length) (hb2 : rb2 < h0.length) (hv1 : rv1 < h0.length)
    (hv2 : rv2 < h0.length) (hc : rc < h0.length) :
    (∀ r < h0.length,
      readArr (computeProgram tcdf df h0 rb1 rb2 rv1 rv2 rc).1 r = readArr h0 r) ∧
    (computeProgram tcdf df h0 rb1 rb2 rv1 rv2 rc).2 =
      compute_combined_pvalue tcdf df (readArr h0 rb1) (readArr h0 rb2)
        (readArr h0 rv1) (readArr h0 rv2) (readArr h0 rc) :=
  ⟨fun r hr => computeProgram_frame tcdf df h0 rb1 rb2 rv1 rv2 rc r hr,
    computeProgram_result tcdf df h0 rb1 rb2 rv1 rv2 rc hb1 hb2 hv1 hv2 hc⟩

theorem C9_witness :
    (∀ r < ([[some 1], [some 2], [some 1], [some 1], [some 0]] : Heap).length,
      readArr (computeProgram tcdfConst 50
        [[some 1], [some 2], [some 1], [some 1], [some 0]] 0 1 2 3 4).1 r =
        readArr [[some 1], [some 2], [some 1], [some 1], [some 0]] r) ∧
    (computeProgram tcdfConst 50
      [[some 1], [some 2], [some 1], [some 1], [some 0]] 0 1 2 3 4).2 =
      compute_combined_pvalue tcdfConst 50
        (readArr [[some 1], [some 2], [some 1], [some 1], [some 0]] 0)
        (readArr [[some 1], [some 2], [some 1], [some 1], [some 0]] 1)
        (readArr [[some 1], [some 2], [some 1], [some 1], [some 0]] 2)
        (readArr [[some 1], [some 2], [some 1], [some 1], [some 0]] 3)
        (readArr [[some 1], [some 2], [some 1], [some 1], [some 0]] 4) :=
  C9_no_input_mutation tcdfConst 50 [[some 1], [some 2], [some 1], [some 1], [some 0]]
    0 1 2 3 4 (by norm_num) (by norm_num) (by norm_num) (by norm_num) (by norm_num)

end CoxOpen
